import Mathlib

/-!
Shallow embedding of the deployment process orchestrator of
`src/app/api/deployment/__init__.py` (module-level constants, the
deployment registry, and the five operations `create_deployment`,
`get_deployment`, `list_deployments`, `delete_deployment` and the
background task `_background_health_check`, together with the helpers
`_get_gpu_free_memory`, `_pick_gpu`, `_find_free_port`,
`_check_http_health`).

External effects (socket binds, process liveness checks, HTTP probes,
clock reads, `uuid4`, `Popen`) are supplied as oracle fields of
per-operation environment structures; each operation additionally
returns the list of lock/blocking events it performs, mirroring the
`with _store_lock:` blocks and the blocking calls of the source, so
that the lock discipline is part of the embedding.
-/

namespace Deploy

/-- `PORT_RANGE = (8000, 8999)` in the source. -/
def PORT_RANGE_LOW : Nat := 8000

/-- `PORT_RANGE = (8000, 8999)` in the source. -/
def PORT_RANGE_HIGH : Nat := 8999

/-- The deployment `status` string field, which the source draws from
`{"starting","running","stopping","stopped","failed"}`. -/
inductive DStatus where
  | starting
  | running
  | stopping
  | stopped
  | failed
  deriving DecidableEq, Repr

/-- The string stored in the record's `status` key. -/
def DStatus.toStr : DStatus → String
  | .starting => "starting"
  | .running => "running"
  | .stopping => "stopping"
  | .stopped => "stopped"
  | .failed => "failed"

/-- One deployment record: the dict the source stores in `_deployments`
(keys in the order they are written by `create_deployment`).
Timestamps are opaque clock readings, modelled as `Nat`. -/
structure DRec where
  deployment_id : String
  model_path : String
  model_version : Option String
  tags : List String
  gpu_id : Option Nat
  port : Nat
  pid : Option Nat
  status : DStatus
  started_at : Option Nat
  stopped_at : Option Nat
  health_ok : Bool
  vllm_cmd : String
  log_file : String
  health_path : String
  deriving DecidableEq, Repr

/-- Python truthiness of the `pid` field (`if pid:`): `None` and `0`
are falsy. -/
def pidTruthy : Option Nat → Bool
  | none => false
  | some p => p != 0

/-- The registry `_deployments`: an insertion-ordered map from
deployment id to record (Python dicts preserve insertion order). -/
abbrev Registry := List (String × DRec)

/-- First record stored under `i`, i.e. `_deployments.get(i)`. -/
def lookupDep : Registry → String → Option DRec
  | [], _ => none
  | (j, r) :: t, i => if j = i then some r else lookupDep t i

/-- `_deployments[i] = r`: replace in place if the key exists,
else append (dict insertion order). -/
def insertDep : Registry → String → DRec → Registry
  | [], i, r => [(i, r)]
  | (j, s) :: t, i, r => if j = i then (i, r) :: t else (j, s) :: insertDep t i r

/-- In-place mutation of the record stored under `i` (the source
mutates the dict's record object under the lock); no-op if absent. -/
def updateDep : Registry → String → (DRec → DRec) → Registry
  | [], _, _ => []
  | (j, s) :: t, i, f => if j = i then (j, f s) :: t else (j, s) :: updateDep t i f

/-- `_deployments.pop(i, None)`: drop the entry stored under `i`. -/
def removeDep : Registry → String → Registry
  | [], _ => []
  | (j, s) :: t, i => if j = i then t else (j, s) :: removeDep t i

/-- Number of entries of the registry stored under key `i`. -/
def countKey (reg : Registry) (i : String) : Nat :=
  (reg.filter (fun p => p.1 = i)).length

/-- Blocking calls named by the concurrency discipline: signal
delivery / liveness checks, HTTP health probes, socket bind attempts
and sleeps. -/
inductive BlockKind where
  | procSignal
  | httpProbe
  | socketBind
  | sleepCall
  deriving DecidableEq, Repr

/-- One event of an operation's execution: acquiring `_store_lock`,
releasing it, or performing a blocking call. -/
inductive Ev where
  | lockAcq
  | lockRel
  | blocking (k : BlockKind)
  deriving DecidableEq, Repr

/-- Whether some blocking event occurs while the lock is held, given
the initial held state: the scan of a trace against `_store_lock`. -/
def blockUnderLock : Bool → List Ev → Bool
  | _, [] => false
  | _, .lockAcq :: t => blockUnderLock true t
  | _, .lockRel :: t => blockUnderLock false t
  | held, .blocking _ :: t => held || blockUnderLock held t

/-- Lock-held state after running a trace from the given state. -/
def endHeld : Bool → List Ev → Bool
  | h, [] => h
  | _, .lockAcq :: t => endHeld true t
  | _, .lockRel :: t => endHeld false t
  | h, .blocking _ :: t => endHeld h t

/-- A trace made only of blocking events (no lock activity). -/
def pureBlocking (tr : List Ev) : Bool :=
  tr.all (fun e => match e with | .blocking _ => true | _ => false)

/-- Output of an operation: its result, the registry afterwards, and
the event trace it performed. -/
structure OpOut (α : Type) where
  result : α
  reg : Registry
  trace : List Ev
  deriving Repr

/-! ### `_get_gpu_free_memory` / `_pick_gpu` (Resource Prober) -/

/-- Oracle outcomes of the two probing paths of
`_get_gpu_free_memory`.  `nvmlDevices = none` models an exception
anywhere inside the pynvml block (after which `results.clear()` runs
and control falls through); `nvmlDevices = some frees` models a
successful pynvml query enumerating `frees.length` devices whose free
memory in bytes is listed by index.  `smiRows` lists the
`(index, MiB)` rows the `nvidia-smi` loop appends before any
exception; a failing `check_output` contributes no rows, and any
exception in that block is swallowed (`pass`). -/
structure ProbeEnv where
  pynvmlAvailable : Bool
  nvmlDevices : Option (List Nat)
  smiRows : List (Nat × Nat)

/-- The pynvml path's return value when it does not raise: pairs
`(index, free_bytes)` for indices `0 .. device_count - 1`. -/
def nvmlPath (env : ProbeEnv) : Option (List (Nat × Nat)) :=
  env.nvmlDevices.map (fun frees => (List.range frees.length).zip frees)

/-- The `nvidia-smi` fallback's contribution: each parsed row's
`memory.free` (MiB) is converted via `* 1024 * 1024`. -/
def smiPath (env : ProbeEnv) : List (Nat × Nat) :=
  env.smiRows.map (fun p => (p.1, p.2 * 1024 * 1024))

/-- `_get_gpu_free_memory()`: if pynvml is importable and its query
succeeds, its result is returned immediately (the `return results`
inside the `try`); only when pynvml is unavailable or raised does
control reach the `nvidia-smi` block. -/
def getGpuFreeMemory (env : ProbeEnv) : List (Nat × Nat) :=
  if env.pynvmlAvailable then
    match nvmlPath env with
    | some l => l
    | none => smiPath env
  else smiPath env

/-- Python's `max(gpus, key=...)` over free memory: the first element
with strictly maximal second component wins (later ties lose). -/
def maxByFree (hd : Nat × Nat) (tl : List (Nat × Nat)) : Nat × Nat :=
  tl.foldl (fun best g => if g.2 > best.2 then g else best) hd

/-- `_pick_gpu(preferred)`: `None` when no GPU is probed; the
preferred id when present; else the id with the most free memory. -/
def pickGpu (gpus : List (Nat × Nat)) (preferred : Option Nat) : Option Nat :=
  match gpus with
  | [] => none
  | hd :: tl =>
    match preferred with
    | some p =>
      if (hd :: tl).any (fun g => g.1 = p) then some p
      else some (maxByFree hd tl).1
    | none => some (maxByFree hd tl).1

/-! ### `_find_free_port` (Port Allocator) -/

/-- Scan `port, port+1, ...` for `fuel` ports, returning the first one
the bind oracle reports free, together with one socket-bind event per
attempt (`_is_port_free` binds a socket per probed port). -/
def findFreePortAux (free : Nat → Bool) : Nat → Nat → Option Nat × List Ev
  | _, 0 => (none, [])
  | port, fuel + 1 =>
    if free port then (some port, [.blocking .socketBind])
    else
      let (res, tr) := findFreePortAux free (port + 1) fuel
      (res, .blocking .socketBind :: tr)

/-- `_find_free_port(low, high)`: first bindable port in
`[low, high]`, or `none` for the `RuntimeError("no free port
available")`. -/
def findFreePort (free : Nat → Bool) (low high : Nat) : Option Nat × List Ev :=
  findFreePortAux free low (high + 1 - low)

/-! ### `_check_http_health` -/

/-- `_check_http_health(port, path)` given the outcome of the GET on
the health path and on the root path: `none` models a raised request,
`some c` a response with status code `c`.  The health path is tried
first; on 200 the root request never happens; on any other outcome the
root path decides. -/
def checkHttpHealth (healthResp rootResp : Option Nat) : Bool :=
  if healthResp = some 200 then true
  else
    match rootResp with
    | some c => c == 200
    | none => false

/-! ### `create_deployment` -/

/-- Request payload (`CreateDeploymentRequest`). -/
structure CreatePayload where
  model_path : String
  model_version : Option String
  tags : List String
  extra_args : String
  preferred_gpu : Option Nat
  health_path : String
  deriving DecidableEq, Repr

/-- Oracles consumed by one `create_deployment` call: the probed GPUs,
the port-bind oracle, the fresh `uuid4` id, the two `time.time()`
readings, and the `Popen` outcome (`none` = the launch raised,
`some pid` = the process object's pid). -/
structure CreateEnv where
  payload : CreatePayload
  gpus : List (Nat × Nat)
  portFree : Nat → Bool
  newId : String
  t_start : Nat
  t_fail : Nat
  launch : Option Nat

/-- Result of `create_deployment`: HTTP 503 (no free port), HTTP 500
with the audit record (launch failed), or HTTP 201 with the record. -/
inductive CreateRes where
  | noPort
  | launchFailed (r : DRec)
  | ok (r : DRec)
  deriving DecidableEq, Repr

/-- The rendered `vllm_cmd` (opaque: template formatting carries no
logic the claims touch). -/
def renderCmd (model_path : String) (port : Nat) (gpu_id : Option Nat)
    (extra_args : String) : String :=
  model_path ++ "|" ++ toString port ++ "|" ++
    (match gpu_id with | some g => toString g | none => "") ++ "|" ++ extra_args

/-- `health_path or DEFAULT_HEALTH_PATH` (empty string is falsy). -/
def effHealthPath (p : String) : String :=
  if p = "" then "/health" else p

/-- `create_deployment(payload)`: pick a GPU, find a free port, render
the command, launch; on launch failure insert a `failed` audit record
under the lock and raise HTTP 500; on success insert the `starting`
record under the lock, schedule `_background_health_check`, and
return the record.  The deployment id is `env.newId` (`uuid4`). -/
def createDeployment (env : CreateEnv) (reg : Registry) : OpOut CreateRes :=
  let gpu_id := pickGpu env.gpus env.payload.preferred_gpu
  match findFreePort env.portFree PORT_RANGE_LOW PORT_RANGE_HIGH with
  | (none, tr) => ⟨.noPort, reg, tr⟩
  | (some port, tr) =>
    let cmd := renderCmd env.payload.model_path port gpu_id env.payload.extra_args
    let logFile := "./deploy_logs/" ++ env.newId ++ ".log"
    match env.launch with
    | none =>
      let r : DRec :=
        { deployment_id := env.newId
          model_path := env.payload.model_path
          model_version := env.payload.model_version
          tags := env.payload.tags
          gpu_id := gpu_id
          port := port
          pid := none
          status := .failed
          started_at := some env.t_start
          stopped_at := some env.t_fail
          health_ok := false
          vllm_cmd := cmd
          log_file := logFile
          health_path := effHealthPath env.payload.health_path }
      ⟨.launchFailed r, insertDep reg env.newId r, tr ++ [.lockAcq, .lockRel]⟩
    | some pid =>
      let r : DRec :=
        { deployment_id := env.newId
          model_path := env.payload.model_path
          model_version := env.payload.model_version
          tags := env.payload.tags
          gpu_id := gpu_id
          port := port
          pid := some pid
          status := .starting
          started_at := some env.t_start
          stopped_at := none
          health_ok := false
          vllm_cmd := cmd
          log_file := logFile
          health_path := effHealthPath env.payload.health_path }
      ⟨.ok r, insertDep reg env.newId r, tr ++ [.lockAcq, .lockRel]⟩

/-! ### `_background_health_check` (Health Monitor task) -/

/-- Oracles consumed by one `_background_health_check` run: whether
`os.kill(pid, 0)` succeeds after the 1 s settle sleep, the per-attempt
HTTP outcomes of `_check_http_health` (health path and root path GET
results for attempt `i`), and the `time.time()` reading of the
dead-process branch. -/
structure MonitorEnv where
  aliveAfterSettle : Bool
  healthResp : Nat → Option Nat
  rootResp : Nat → Option Nat
  t_stop : Nat

/-- Health attempt `i` of the monitor: one `_check_http_health` call. -/
def monAttempt (env : MonitorEnv) (i : Nat) : Bool :=
  checkHttpHealth (env.healthResp i) (env.rootResp i)

/-- The monitor's `for _ in range(12)` loop from attempt `i` with
`fuel` attempts left: stops at the first successful check, sleeping
0.5 s after every failed one.  Returns `success` and the trace. -/
def monitorLoop (att : Nat → Bool) : Nat → Nat → Bool × List Ev
  | _, 0 => (false, [])
  | i, fuel + 1 =>
    if att i then (true, [.blocking .httpProbe])
    else
      let (s, tr) := monitorLoop att (i + 1) fuel
      (s, .blocking .httpProbe :: .blocking .sleepCall :: tr)

/-- `_background_health_check`: sleep 1 s; if the signal-0 liveness
probe raises, mark the record (if still present) `stopped`,
`health_ok=False`, `stopped_at=now` and return; otherwise run up to 12
health checks and mark the record (if still present) `running` with
`health_ok` = whether one check succeeded. -/
def backgroundHealthCheck (env : MonitorEnv) (id : String) (reg : Registry) :
    OpOut Unit :=
  if env.aliveAfterSettle then
    let (success, tr) := monitorLoop (monAttempt env) 0 12
    ⟨(), updateDep reg id (fun r => { r with status := .running, health_ok := success }),
      [.blocking .sleepCall, .blocking .procSignal] ++ tr ++ [.lockAcq, .lockRel]⟩
  else
    ⟨(), updateDep reg id
        (fun r => { r with status := .stopped, health_ok := false,
                           stopped_at := some env.t_stop }),
      [.blocking .sleepCall, .blocking .procSignal, .lockAcq, .lockRel]⟩

/-! ### `get_deployment` -/

/-- Oracles of one `get_deployment` call: whether `os.kill(pid, 0)`
succeeds, and the outcome of the synchronous `_check_http_health`
(run only when the process is alive). -/
structure GetEnv where
  alive : Bool
  healthResp : Option Nat
  rootResp : Option Nat

/-- Result of `get_deployment`: HTTP 404 or the (refreshed) record. -/
inductive GetRes where
  | notFound
  | found (r : DRec)
  deriving DecidableEq, Repr

/-- `get_deployment(id)`: under the lock, look the record up (404 if
absent); if its pid is truthy, check liveness outside the lock, then
re-acquire the lock and set `status`/`health_ok` — the HTTP probe of
the alive branch runs inside that second locked section. -/
def getDeployment (env : GetEnv) (id : String) (reg : Registry) : OpOut GetRes :=
  match lookupDep reg id with
  | none => ⟨.notFound, reg, [.lockAcq, .lockRel]⟩
  | some r =>
    if pidTruthy r.pid then
      let r' :=
        if env.alive then
          { r with status := .running,
                   health_ok := checkHttpHealth env.healthResp env.rootResp }
        else
          { r with status := .stopped, health_ok := false }
      ⟨.found r', updateDep reg id (fun _ => r'),
        [.lockAcq, .lockRel, .blocking .procSignal, .lockAcq] ++
          (if env.alive then [.blocking .httpProbe] else []) ++ [.lockRel]⟩
    else
      ⟨.found r, reg, [.lockAcq, .lockRel]⟩

/-! ### `list_deployments` -/

/-- Oracles of one `list_deployments` call, keyed by deployment id:
liveness of each record's process and the outcome of its synchronous
health check. -/
structure ListEnv where
  alive : String → Bool
  healthResp : String → Option Nat
  rootResp : String → Option Nat

/-- The refresh a `list_deployments` pass applies to one entry: for a
truthy pid, liveness decides `running`+probe or `stopped`+`False`. -/
def listRefresh (env : ListEnv) (i : String) (r : DRec) : DRec :=
  if pidTruthy r.pid then
    if env.alive i then
      { r with status := .running,
               health_ok := checkHttpHealth (env.healthResp i) (env.rootResp i) }
    else { r with status := .stopped, health_ok := false }
  else r

/-- The blocking events the refresh of one entry performs (all inside
the single locked section of `list_deployments`). -/
def listRefreshEvs (env : ListEnv) (i : String) (r : DRec) : List Ev :=
  if pidTruthy r.pid then
    .blocking .procSignal :: (if env.alive i then [.blocking .httpProbe] else [])
  else []

/-- Truthiness of an optional string filter (`if model and ...`):
absent or empty is falsy. -/
def strFilterActive : Option String → Bool
  | none => false
  | some s => s != ""

/-- Substring containment, Python's `needle in hay` on strings. -/
def strContains (hay needle : String) : Bool :=
  decide (needle.data <:+: hay.data)

/-- The filter phase of `list_deployments` on one (already refreshed)
record. -/
def listKeep (model tag status : Option String) (r : DRec) : Bool :=
  (if strFilterActive model then
      strContains r.model_path (model.getD "") else true) &&
  (if strFilterActive tag then r.tags.contains (tag.getD "") else true) &&
  (if strFilterActive status then
      r.status.toStr.toLower == (status.getD "").toLower else true)

/-- `list_deployments(model, tag, status)`: one locked section that
first refreshes every record with a truthy pid (liveness signal and,
when alive, an HTTP probe — all under the lock), then filters the
refreshed records. -/
def listDeployments (env : ListEnv) (model tag status : Option String)
    (reg : Registry) : OpOut (List DRec) :=
  let reg' := reg.map (fun p => (p.1, listRefresh env p.1 p.2))
  let out := (reg'.map Prod.snd).filter (listKeep model tag status)
  ⟨out, reg',
    [.lockAcq] ++ (reg.flatMap (fun p => listRefreshEvs env p.1 p.2)) ++ [.lockRel]⟩

/-! ### `delete_deployment` -/

/-- Oracles of one `delete_deployment` call: the liveness observation
of each iteration of the termination poll loop (`os.kill(pid, 0)` at
iteration `i`), the number of loop iterations the 10 s wall-clock
window admits, and the `time.time()` of the removal branch. -/
structure DeleteEnv where
  aliveAt : Nat → Bool
  pollIters : Nat
  t_stop : Nat

/-- Result of `delete_deployment`: HTTP 404, HTTP 409 (`retry with
force=true`), or removal. -/
inductive DeleteRes where
  | notFound
  | conflict
  | removed
  deriving DecidableEq, Repr

/-- The termination poll loop from iteration `i` with `fuel`
iterations left: each iteration signals the process (liveness check)
and either sleeps 0.5 s (still alive) or sets `stopped` and breaks. -/
def pollLoop (aliveAt : Nat → Bool) : Nat → Nat → Bool × List Ev
  | _, 0 => (false, [])
  | i, fuel + 1 =>
    if aliveAt i then
      let (s, tr) := pollLoop aliveAt (i + 1) fuel
      (s, .blocking .procSignal :: .blocking .sleepCall :: tr)
    else (true, [.blocking .procSignal])

/-- `delete_deployment(id, force)`: under the lock mark the record
`stopping` (404 if absent); for a truthy pid send SIGTERM to the
process group (fall back to the pid; failures swallowed), poll for
death; if it never died, either send SIGKILL (force) and proceed, or
re-mark `stopping` under the lock and raise HTTP 409; finally pop the
record under the lock (marking the popped dict `stopped` with
`stopped_at=now`) and return the removal response. -/
def deleteDeployment (env : DeleteEnv) (id : String) (force : Bool)
    (reg : Registry) : OpOut DeleteRes :=
  match lookupDep reg id with
  | none => ⟨.notFound, reg, [.lockAcq, .lockRel]⟩
  | some r =>
    let reg1 := updateDep reg id (fun s => { s with status := .stopping })
    if pidTruthy r.pid then
      let (stopped, polltr) := pollLoop env.aliveAt 0 env.pollIters
      let pre : List Ev := [.lockAcq, .lockRel, .blocking .procSignal] ++ polltr
      if stopped then
        ⟨.removed, removeDep reg1 id, pre ++ [.lockAcq, .lockRel]⟩
      else
        if force then
          ⟨.removed, removeDep reg1 id,
            pre ++ [.blocking .procSignal, .lockAcq, .lockRel]⟩
        else
          ⟨.conflict, updateDep reg1 id (fun s => { s with status := .stopping }),
            pre ++ [.lockAcq, .lockRel]⟩
    else
      ⟨.removed, removeDep reg1 id, [.lockAcq, .lockRel, .lockAcq, .lockRel]⟩

/-! ### Combined operations (for registry-wide invariants) -/

/-- One invocation of any registry-touching operation of the module,
with its oracles. -/
inductive Op where
  | create (env : CreateEnv)
  | get (env : GetEnv) (id : String)
  | list (env : ListEnv) (model tag status : Option String)
  | delete (env : DeleteEnv) (id : String) (force : Bool)
  | monitor (env : MonitorEnv) (id : String)

/-- The registry after running an operation. -/
def applyOp (op : Op) (reg : Registry) : Registry :=
  match op with
  | .create env => (createDeployment env reg).reg
  | .get env id => (getDeployment env id reg).reg
  | .list env m t s => (listDeployments env m t s reg).reg
  | .delete env id force => (deleteDeployment env id force reg).reg
  | .monitor env id => (backgroundHealthCheck env id reg).reg

/-- `uuid4` freshness: a `create` operation's new id is not already a
key of the registry (the code's operating assumption; a colliding
`uuid4` would overwrite the existing record). -/
def opFresh (op : Op) (reg : Registry) : Prop :=
  match op with
  | .create env => lookupDep reg env.newId = none
  | _ => True

/-! ### Registry well-formedness and sample values -/

/-- Keys of a Python dict are unique: well-formedness of the
registry value used where removal is reasoned about. -/
def regWF (reg : Registry) : Prop :=
  (reg.map Prod.fst).Nodup

/-- A record counts as live when its status is neither `stopped` nor
`failed`. -/
def liveRec (r : DRec) : Bool :=
  r.status != DStatus.stopped && r.status != DStatus.failed

/-- Events the `create` path must not wait on: health probes and
sleeps. -/
def healthWaitCount (tr : List Ev) : Nat :=
  tr.countP (fun e => e == Ev.blocking .httpProbe || e == Ev.blocking .sleepCall)

/-- Number of HTTP probe events of a trace. -/
def probeCount (tr : List Ev) : Nat :=
  tr.countP (fun e => e == Ev.blocking .httpProbe)

/-- A sample request payload for concrete scenarios. -/
def samplePayload : CreatePayload :=
  { model_path := "m"
    model_version := none
    tags := []
    extra_args := ""
    preferred_gpu := none
    health_path := "/health" }

/-- A sample `starting` record with a truthy pid, as inserted by a
successful `create`. -/
def sampleRec : DRec :=
  { deployment_id := "d"
    model_path := "m"
    model_version := none
    tags := []
    gpu_id := none
    port := 8000
    pid := some 7
    status := .starting
    started_at := some 0
    stopped_at := none
    health_ok := false
    vllm_cmd := ""
    log_file := ""
    health_path := "/health" }

/-- The sample record while a non-forced delete is pending
(`status == stopping`). -/
def sampleStopping : DRec :=
  { sampleRec with status := DStatus.stopping }

/-- Create environment: everything succeeds, id `"a"`, pid 10, every
port bindable. -/
def cEnvA : CreateEnv :=
  { payload := samplePayload, gpus := [], portFree := fun _ => true,
    newId := "a", t_start := 0, t_fail := 0, launch := some 10 }

/-- Create environment: everything succeeds, id `"b"`, pid 11, every
port bindable (the process of `"a"` never bound its port). -/
def cEnvB : CreateEnv :=
  { payload := samplePayload, gpus := [], portFree := fun _ => true,
    newId := "b", t_start := 1, t_fail := 1, launch := some 11 }

/-- Create environment in which port 8000 is held (unbindable, e.g.
by the live sample deployment's process) and every other port is
free. -/
def cEnvC : CreateEnv :=
  { payload := samplePayload, gpus := [], portFree := fun p => p != 8000,
    newId := "c", t_start := 6, t_fail := 6, launch := some 12 }

/-- The record `create_deployment` inserts for `cEnvC`. -/
def cRecC : DRec :=
  { deployment_id := "c"
    model_path := "m"
    model_version := none
    tags := []
    gpu_id := none
    port := 8001
    pid := some 12
    status := .starting
    started_at := some 6
    stopped_at := none
    health_ok := false
    vllm_cmd := renderCmd "m" 8001 none ""
    log_file := "./deploy_logs/c.log"
    health_path := "/health" }

/-- Create environment whose launch raises. -/
def cEnvFail : CreateEnv :=
  { payload := samplePayload, gpus := [], portFree := fun _ => true,
    newId := "f", t_start := 3, t_fail := 4, launch := none }

/-- Monitor run: process alive after the settle delay, every health
request raises (e.g. the process died right after the liveness
check). -/
def mEnvDegraded : MonitorEnv :=
  { aliveAfterSettle := true, healthResp := fun _ => none,
    rootResp := fun _ => none, t_stop := 5 }

/-- Monitor run: process already dead at the settle-delay check. -/
def mEnvDead : MonitorEnv :=
  { aliveAfterSettle := false, healthResp := fun _ => none,
    rootResp := fun _ => none, t_stop := 5 }

/-- Monitor run: first health request answers 200. -/
def mEnvHealthy : MonitorEnv :=
  { aliveAfterSettle := true, healthResp := fun _ => some 200,
    rootResp := fun _ => none, t_stop := 5 }

/-- Get call observing a live process whose health path answers 200. -/
def gEnvAlive : GetEnv :=
  { alive := true, healthResp := some 200, rootResp := none }

/-- Get call observing a dead process. -/
def gEnvDead : GetEnv :=
  { alive := false, healthResp := none, rootResp := none }

/-- List call observing every process alive and healthy. -/
def lEnvAlive : ListEnv :=
  { alive := fun _ => true, healthResp := fun _ => some 200,
    rootResp := fun _ => none }

/-- List call observing every process dead. -/
def lEnvDead : ListEnv :=
  { alive := fun _ => false, healthResp := fun _ => none,
    rootResp := fun _ => none }

/-- Delete call whose process never exits during the poll window
(20 poll iterations of the ~10 s window). -/
def dEnvStuck : DeleteEnv :=
  { aliveAt := fun _ => true, pollIters := 20, t_stop := 9 }

/-- Probe environment: pynvml importable, its query succeeds but
enumerates zero devices, while `nvidia-smi` would report one GPU with
100 MiB free. -/
def pEnvEmptyNvml : ProbeEnv :=
  { pynvmlAvailable := true, nvmlDevices := some [], smiRows := [(0, 100)] }

/-! ### Registry lemmas -/

theorem lookupDep_insertDep_self (reg : Registry) (i : String) (r : DRec) :
    lookupDep (insertDep reg i r) i = some r := by
  induction reg with
  | nil => simp [insertDep, lookupDep]
  | cons p t ih =>
    obtain ⟨j, s⟩ := p
    by_cases hj : j = i
    · simp [insertDep, hj, lookupDep]
    · simp [insertDep, hj, lookupDep, ih]

theorem lookupDep_insertDep_ne (reg : Registry) (i j : String) (r : DRec)
    (h : j ≠ i) : lookupDep (insertDep reg i r) j = lookupDep reg j := by
  induction reg with
  | nil => simp [insertDep, lookupDep, Ne.symm h]
  | cons p t ih =>
    obtain ⟨k, s⟩ := p
    by_cases hk : k = i
    · subst hk
      simp [insertDep, lookupDep, Ne.symm h]
    · simp only [insertDep, hk, if_false, lookupDep]
      by_cases hkj : k = j <;> simp [hkj, ih]

theorem lookupDep_updateDep_self (reg : Registry) (i : String)
    (f : DRec → DRec) :
    lookupDep (updateDep reg i f) i = (lookupDep reg i).map f := by
  induction reg with
  | nil => simp [updateDep, lookupDep]
  | cons p t ih =>
    obtain ⟨j, s⟩ := p
    by_cases hj : j = i
    · simp [updateDep, hj, lookupDep]
    · simp [updateDep, hj, lookupDep, ih]

theorem lookupDep_updateDep_ne (reg : Registry) (i j : String)
    (f : DRec → DRec) (h : j ≠ i) :
    lookupDep (updateDep reg i f) j = lookupDep reg j := by
  induction reg with
  | nil => simp [updateDep]
  | cons p t ih =>
    obtain ⟨k, s⟩ := p
    by_cases hk : k = i
    · subst hk
      simp [updateDep, lookupDep, Ne.symm h]
    · simp only [updateDep, hk, if_false, lookupDep]
      by_cases hkj : k = j <;> simp [hkj, ih]

theorem lookupDep_removeDep_ne (reg : Registry) (i j : String) (h : j ≠ i) :
    lookupDep (removeDep reg i) j = lookupDep reg j := by
  induction reg with
  | nil => simp [removeDep]
  | cons p t ih =>
    obtain ⟨k, s⟩ := p
    by_cases hk : k = i
    · subst hk
      simp [removeDep, lookupDep, Ne.symm h]
    · simp only [removeDep, hk, if_false, lookupDep]
      by_cases hkj : k = j <;> simp [hkj, ih]

theorem lookupDep_eq_none_of_not_mem (reg : Registry) (i : String)
    (h : i ∉ reg.map Prod.fst) : lookupDep reg i = none := by
  induction reg with
  | nil => rfl
  | cons p t ih =>
    obtain ⟨j, s⟩ := p
    simp only [List.map_cons, List.mem_cons, not_or] at h
    simp [lookupDep, Ne.symm h.1, ih h.2]

theorem lookupDep_removeDep_self (reg : Registry) (i : String)
    (h : regWF reg) : lookupDep (removeDep reg i) i = none := by
  induction reg with
  | nil => rfl
  | cons p t ih =>
    obtain ⟨j, s⟩ := p
    simp only [regWF, List.map_cons, List.nodup_cons] at h
    by_cases hj : j = i
    · subst hj
      simpa [removeDep] using lookupDep_eq_none_of_not_mem t j h.1
    · simp [removeDep, hj, lookupDep, ih h.2]

theorem keys_updateDep (reg : Registry) (i : String) (f : DRec → DRec) :
    (updateDep reg i f).map Prod.fst = reg.map Prod.fst := by
  induction reg with
  | nil => rfl
  | cons p t ih =>
    obtain ⟨j, s⟩ := p
    by_cases hj : j = i <;> simp [updateDep, hj, ih]

theorem regWF_updateDep (reg : Registry) (i : String) (f : DRec → DRec)
    (h : regWF reg) : regWF (updateDep reg i f) := by
  simpa [regWF, keys_updateDep] using h

theorem countKey_eq_zero_of_lookup_none (reg : Registry) (i : String)
    (h : lookupDep reg i = none) : countKey reg i = 0 := by
  induction reg with
  | nil => rfl
  | cons p t ih =>
    obtain ⟨j, s⟩ := p
    by_cases hj : j = i
    · simp [lookupDep, hj] at h
    · simp only [lookupDep, hj, if_false] at h
      simp [countKey, List.filter, hj, countKey_eq_zero_of_lookup_none t i h] at ih ⊢
      exact ih h

theorem countKey_insertDep_fresh (reg : Registry) (i : String) (r : DRec)
    (h : lookupDep reg i = none) : countKey (insertDep reg i r) i = 1 := by
  induction reg with
  | nil => simp [insertDep, countKey, List.filter]
  | cons p t ih =>
    obtain ⟨j, s⟩ := p
    by_cases hj : j = i
    · simp [lookupDep, hj] at h
    · simp only [lookupDep, hj, if_false] at h
      simp [insertDep, hj, countKey, List.filter] at ih ⊢
      exact ih h

theorem lookupDep_map_refresh (reg : Registry) (i : String)
    (f : String → DRec → DRec) :
    lookupDep (reg.map (fun p => (p.1, f p.1 p.2))) i =
      (lookupDep reg i).map (f i) := by
  induction reg with
  | nil => rfl
  | cons p t ih =>
    obtain ⟨j, s⟩ := p
    by_cases hj : j = i
    · subst hj
      simp [lookupDep]
    · simp [lookupDep, hj, ih]

/-! ### Trace lemmas -/

theorem blockUnderLock_append (t1 t2 : List Ev) (h : Bool) :
    blockUnderLock h (t1 ++ t2) =
      (blockUnderLock h t1 || blockUnderLock (endHeld h t1) t2) := by
  induction t1 generalizing h with
  | nil => simp [blockUnderLock, endHeld]
  | cons e t ih =>
    cases e <;> simp [blockUnderLock, endHeld, ih, Bool.or_assoc]

theorem endHeld_of_pureBlocking (tr : List Ev) (h : Bool)
    (hp : pureBlocking tr = true) : endHeld h tr = h := by
  induction tr with
  | nil => rfl
  | cons e t ih =>
    simp only [pureBlocking, List.all_cons, Bool.and_eq_true] at hp
    cases e with
    | lockAcq => exact absurd hp.1 (by simp)
    | lockRel => exact absurd hp.1 (by simp)
    | blocking k => exact ih hp.2

theorem blockUnderLock_of_pureBlocking (tr : List Ev)
    (hp : pureBlocking tr = true) : blockUnderLock false tr = false := by
  induction tr with
  | nil => rfl
  | cons e t ih =>
    simp only [pureBlocking, List.all_cons, Bool.and_eq_true] at hp
    cases e with
    | lockAcq => exact absurd hp.1 (by simp)
    | lockRel => exact absurd hp.1 (by simp)
    | blocking k => simpa [blockUnderLock] using ih hp.2

theorem findFreePortAux_pure (free : Nat → Bool) :
    ∀ fuel port, pureBlocking (findFreePortAux free port fuel).2 = true := by
  intro fuel
  induction fuel with
  | zero => intro port; rfl
  | succ n ih =>
    intro port
    by_cases h : free port
    · simp [findFreePortAux, h, pureBlocking]
    · simpa [findFreePortAux, h, pureBlocking, List.all_cons] using ih (port + 1)

theorem pollLoop_pure (aliveAt : Nat → Bool) :
    ∀ fuel i, pureBlocking (pollLoop aliveAt i fuel).2 = true := by
  intro fuel
  induction fuel with
  | zero => intro i; rfl
  | succ n ih =>
    intro i
    by_cases h : aliveAt i
    · simpa [pollLoop, h, pureBlocking, List.all_cons] using ih (i + 1)
    · simp [pollLoop, h, pureBlocking]

theorem monitorLoop_pure (att : Nat → Bool) :
    ∀ fuel i, pureBlocking (monitorLoop att i fuel).2 = true := by
  intro fuel
  induction fuel with
  | zero => intro i; rfl
  | succ n ih =>
    intro i
    by_cases h : att i
    · simp [monitorLoop, h, pureBlocking]
    · simpa [monitorLoop, h, pureBlocking, List.all_cons] using ih (i + 1)

/-! ### Loop characterization lemmas -/

theorem pollLoop_not_stopped (aliveAt : Nat → Bool)
    (h : ∀ j, aliveAt j = true) :
    ∀ fuel i, (pollLoop aliveAt i fuel).1 = false := by
  intro fuel
  induction fuel with
  | zero => intro i; rfl
  | succ n ih => intro i; simp [pollLoop, h i, ih (i + 1)]

theorem checkHttpHealth_iff (healthResp rootResp : Option Nat) :
    checkHttpHealth healthResp rootResp = true ↔
      healthResp = some 200 ∨ rootResp = some 200 := by
  unfold checkHttpHealth
  by_cases hh : healthResp = some 200
  · simp [hh]
  · rcases rootResp with _ | c
    · simp [hh]
    · simp [hh, beq_iff_eq]

theorem monitorLoop_success_iff (att : Nat → Bool) :
    ∀ fuel i, (monitorLoop att i fuel).1 = true ↔
      ∃ j, j < fuel ∧ att (i + j) = true := by
  intro fuel
  induction fuel with
  | zero =>
    intro i
    refine ⟨fun h => Bool.noConfusion h, ?_⟩
    rintro ⟨j, hj, -⟩
    exact absurd hj (Nat.not_lt_zero j)
  | succ n ih =>
    intro i
    by_cases h : att i = true
    · refine ⟨fun _ => ⟨0, Nat.succ_pos n, by simpa using h⟩, fun _ => ?_⟩
      show (monitorLoop att i (n + 1)).1 = true
      rw [monitorLoop, if_pos h]
    · rcases hml : monitorLoop att (i + 1) n with ⟨s, tr⟩
      have hred : monitorLoop att i (n + 1) =
          (s, .blocking .httpProbe :: .blocking .sleepCall :: tr) := by
        rw [monitorLoop, if_neg h, hml]
      rw [hred]
      have ihs := ih (i + 1)
      rw [hml] at ihs
      constructor
      · intro hs
        obtain ⟨j, hj, ha⟩ := ihs.1 hs
        refine ⟨j + 1, Nat.succ_lt_succ hj, ?_⟩
        have he : i + 1 + j = i + (j + 1) := by omega
        rwa [he] at ha
      · rintro ⟨j, hj, ha⟩
        rcases j with _ | j'
        · rw [Nat.add_zero] at ha
          exact absurd ha h
        · refine ihs.2 ⟨j', Nat.lt_of_succ_lt_succ hj, ?_⟩
          have he : i + 1 + j' = i + (j' + 1) := by omega
          rwa [he]

theorem monitorLoop_probeCount_le (att : Nat → Bool) :
    ∀ fuel i, probeCount (monitorLoop att i fuel).2 ≤ fuel := by
  intro fuel
  induction fuel with
  | zero => intro i; exact Nat.le_refl 0
  | succ n ih =>
    intro i
    by_cases h : att i = true
    · have hred : monitorLoop att i (n + 1) = (true, [.blocking .httpProbe]) := by
        rw [monitorLoop, if_pos h]
      rw [hred]
      simp [probeCount, List.countP_cons]
    · rcases hml : monitorLoop att (i + 1) n with ⟨s, tr⟩
      have hred : monitorLoop att i (n + 1) =
          (s, .blocking .httpProbe :: .blocking .sleepCall :: tr) := by
        rw [monitorLoop, if_neg h, hml]
      rw [hred]
      have hle := ih (i + 1)
      rw [hml] at hle
      simp only [probeCount, List.countP_cons] at hle ⊢
      simp only [beq_iff_eq, reduceCtorEq, reduceIte, Ev.blocking.injEq]
      omega

theorem findFreePortAux_healthWait (free : Nat → Bool) :
    ∀ fuel port, healthWaitCount (findFreePortAux free port fuel).2 = 0 := by
  intro fuel
  induction fuel with
  | zero => intro port; rfl
  | succ n ih =>
    intro port
    by_cases h : free port
    · simp [findFreePortAux, h, healthWaitCount, List.countP_cons]
    · have := ih (port + 1)
      simp only [findFreePortAux, h, if_false, healthWaitCount,
        List.countP_cons] at this ⊢
      simp_all [healthWaitCount]

theorem findFreePortAux_bounds (free : Nat → Bool) :
    ∀ fuel port p, (findFreePortAux free port fuel).1 = some p →
      port ≤ p ∧ p < port + fuel ∧ free p = true := by
  intro fuel
  induction fuel with
  | zero => intro port p h; simp [findFreePortAux] at h
  | succ n ih =>
    intro port p h
    by_cases hf : free port
    · simp only [findFreePortAux, hf, if_true] at h
      obtain rfl : port = p := by simpa using h
      exact ⟨Nat.le_refl _, by omega, hf⟩
    · simp only [findFreePortAux, hf, if_false] at h
      obtain ⟨h1, h2, h3⟩ := ih (port + 1) p h
      exact ⟨by omega, by omega, h3⟩

theorem findFreePort_healthWait (free : Nat → Bool) (low high : Nat) :
    healthWaitCount (findFreePort free low high).2 = 0 :=
  findFreePortAux_healthWait free (high + 1 - low) low

theorem findFreePort_pure (free : Nat → Bool) (low high : Nat) :
    pureBlocking (findFreePort free low high).2 = true :=
  findFreePortAux_pure free (high + 1 - low) low

theorem findFreePort_bounds (free : Nat → Bool) (low high p : Nat)
    (h : (findFreePort free low high).1 = some p) :
    low ≤ p ∧ p ≤ high ∧ free p = true := by
  obtain ⟨h1, h2, h3⟩ := findFreePortAux_bounds free (high + 1 - low) low p h
  exact ⟨h1, by omega, h3⟩

/-! ### Claim theorems -/

/-- **C1.** For every `create` call in which port allocation and
process launch succeed (the bind scan yields a port and `Popen`
returns a pid) and whose fresh `uuid4` id is not already registered,
`create_deployment` returns a record with `status == "starting"`,
`health_ok == False`, a non-null pid, `started_at` set and
`stopped_at == None`; immediately after the call the registry holds
exactly one record under that deployment id; and the call performed
no health probe and no sleep (it does not wait on any health check —
the monitor runs as a background task afterwards). -/
theorem create_returns_starting (env : CreateEnv) (reg : Registry) (p pid : Nat)
    (hport : (findFreePort env.portFree PORT_RANGE_LOW PORT_RANGE_HIGH).1 = some p)
    (hlaunch : env.launch = some pid)
    (hfresh : lookupDep reg env.newId = none) :
    ∃ r, (createDeployment env reg).result = CreateRes.ok r ∧
      r.status = DStatus.starting ∧
      r.health_ok = false ∧
      r.pid = some pid ∧
      r.started_at = some env.t_start ∧
      r.stopped_at = none ∧
      lookupDep (createDeployment env reg).reg env.newId = some r ∧
      countKey (createDeployment env reg).reg env.newId = 1 ∧
      healthWaitCount (createDeployment env reg).trace = 0 := by
  have hwait := findFreePort_healthWait env.portFree PORT_RANGE_LOW PORT_RANGE_HIGH
  rcases hfp : findFreePort env.portFree PORT_RANGE_LOW PORT_RANGE_HIGH with ⟨res, tr⟩
  rw [hfp] at hport hwait
  subst hport
  simp only at hwait
  simp only [createDeployment, hfp, hlaunch]
  refine ⟨_, rfl, rfl, rfl, rfl, rfl, rfl,
    lookupDep_insertDep_self reg env.newId _,
    countKey_insertDep_fresh reg env.newId _ hfresh, ?_⟩
  simp only [healthWaitCount, List.countP_append] at hwait ⊢
  simp [hwait, List.countP_cons]

/-- Witness for C1 at a concrete environment: every port bindable,
launch yields pid 10, empty registry. -/
theorem create_returns_starting_witness :
    ∃ r, (createDeployment cEnvA []).result = CreateRes.ok r ∧
      r.status = DStatus.starting ∧
      r.health_ok = false ∧
      r.pid = some 10 ∧
      r.started_at = some cEnvA.t_start ∧
      r.stopped_at = none ∧
      lookupDep (createDeployment cEnvA []).reg cEnvA.newId = some r ∧
      countKey (createDeployment cEnvA []).reg cEnvA.newId = 1 ∧
      healthWaitCount (createDeployment cEnvA []).trace = 0 :=
  create_returns_starting cEnvA [] 8000 10 (by rfl) (by rfl) (by rfl)

/-- **C4.** For every `create` call in which the launch raises,
`create_deployment` fails with the HTTP 500 result yet still inserts
an audit record with `status == "failed"`, `pid == None` and
`stopped_at` set to the failure-time clock reading; the record is in
the registry when the call raises. -/
theorem create_launch_failure_audit (env : CreateEnv) (reg : Registry) (p : Nat)
    (hport : (findFreePort env.portFree PORT_RANGE_LOW PORT_RANGE_HIGH).1 = some p)
    (hlaunch : env.launch = none) :
    ∃ r, (createDeployment env reg).result = CreateRes.launchFailed r ∧
      r.status = DStatus.failed ∧
      r.pid = none ∧
      r.started_at = some env.t_start ∧
      r.stopped_at = some env.t_fail ∧
      lookupDep (createDeployment env reg).reg env.newId = some r := by
  rcases hfp : findFreePort env.portFree PORT_RANGE_LOW PORT_RANGE_HIGH with ⟨res, tr⟩
  rw [hfp] at hport
  subst hport
  simp only [createDeployment, hfp, hlaunch]
  exact ⟨_, rfl, rfl, rfl, rfl, rfl, lookupDep_insertDep_self reg env.newId _⟩

/-- Witness for C4 at a concrete environment whose launch raises. -/
theorem create_launch_failure_audit_witness :
    ∃ r, (createDeployment cEnvFail []).result = CreateRes.launchFailed r ∧
      r.status = DStatus.failed ∧
      r.pid = none ∧
      r.started_at = some cEnvFail.t_start ∧
      r.stopped_at = some cEnvFail.t_fail ∧
      lookupDep (createDeployment cEnvFail []).reg cEnvFail.newId = some r :=
  create_launch_failure_audit cEnvFail [] 8000 (by rfl) (by rfl)

/-- **C7.** The Health Monitor's final write to a still-present
record is fully determined: if the process is dead at the initial
liveness check the record becomes `stopped` / `health_ok=False` with
`stopped_at` set and no HTTP probe is performed; if it is alive, at
most 12 HTTP probe attempts happen and the record becomes `running`
with `health_ok=True` exactly when some attempt got HTTP 200 on the
health path or on the root path, `running` / `health_ok=False` when
all attempts failed. -/
theorem monitor_final_write (env : MonitorEnv) (id : String) (reg : Registry)
    (r : DRec) (h : lookupDep reg id = some r) :
    (env.aliveAfterSettle = false →
      lookupDep (backgroundHealthCheck env id reg).reg id =
        some { r with status := DStatus.stopped, health_ok := false,
                      stopped_at := some env.t_stop } ∧
      probeCount (backgroundHealthCheck env id reg).trace = 0) ∧
    (env.aliveAfterSettle = true →
      probeCount (backgroundHealthCheck env id reg).trace ≤ 12 ∧
      ∃ ok, lookupDep (backgroundHealthCheck env id reg).reg id =
          some { r with status := DStatus.running, health_ok := ok } ∧
        (ok = true ↔ ∃ i, i < 12 ∧
          (env.healthResp i = some 200 ∨ env.rootResp i = some 200))) := by
  constructor
  · intro hd
    simp only [backgroundHealthCheck, hd, Bool.false_eq_true, if_false]
    constructor
    · rw [lookupDep_updateDep_self, h]
      rfl
    · simp [probeCount, List.countP_cons]
  · intro ha
    rcases hml : monitorLoop (monAttempt env) 0 12 with ⟨success, tr⟩
    have hcnt := monitorLoop_probeCount_le (monAttempt env) 12 0
    have hiff := monitorLoop_success_iff (monAttempt env) 12 0
    rw [hml] at hcnt hiff
    simp only at hcnt hiff
    simp only [backgroundHealthCheck, ha, if_true, hml]
    refine ⟨?_, success, ?_, ?_⟩
    · simp only [probeCount, List.countP_append, List.countP_cons,
        List.countP_nil] at hcnt ⊢
      simp only [beq_iff_eq, reduceCtorEq, reduceIte, Ev.blocking.injEq] at hcnt ⊢
      omega
    · rw [lookupDep_updateDep_self, h]
      rfl
    · rw [hiff]
      constructor
      · rintro ⟨j, hj, hatt⟩
        refine ⟨j, hj, ?_⟩
        rw [Nat.zero_add] at hatt
        exact (checkHttpHealth_iff (env.healthResp j) (env.rootResp j)).1 hatt
      · rintro ⟨j, hj, hok⟩
        refine ⟨j, hj, ?_⟩
        rw [Nat.zero_add]
        exact (checkHttpHealth_iff (env.healthResp j) (env.rootResp j)).2 hok

/-- Witness for C7: the settle-delay liveness check passes and the
first probe answers 200 on the health path. -/
theorem monitor_final_write_witness :
    (mEnvHealthy.aliveAfterSettle = false →
      lookupDep (backgroundHealthCheck mEnvHealthy "d" [("d", sampleRec)]).reg "d" =
        some { sampleRec with status := DStatus.stopped, health_ok := false,
                              stopped_at := some mEnvHealthy.t_stop } ∧
      probeCount (backgroundHealthCheck mEnvHealthy "d" [("d", sampleRec)]).trace = 0) ∧
    (mEnvHealthy.aliveAfterSettle = true →
      probeCount (backgroundHealthCheck mEnvHealthy "d" [("d", sampleRec)]).trace ≤ 12 ∧
      ∃ ok, lookupDep (backgroundHealthCheck mEnvHealthy "d" [("d", sampleRec)]).reg "d" =
          some { sampleRec with status := DStatus.running, health_ok := ok } ∧
        (ok = true ↔ ∃ i, i < 12 ∧
          (mEnvHealthy.healthResp i = some 200 ∨ mEnvHealthy.rootResp i = some 200))) :=
  monitor_final_write mEnvHealthy "d" [("d", sampleRec)] sampleRec (by rfl)

/-- **C6, counterexample.** A deployment whose process exits on its
own *after* the monitor's settle-delay liveness check but before any
successful probe (every HTTP attempt fails, so there is no successful
probe): the monitor's final write leaves `running` /
`health_ok=False` with `stopped_at=None`, and a later `get` — run
once the process is dead — returns `stopped` / `health_ok=False` but
with `stopped_at` still `None`, contradicting the claimed
`stopped_at != null` (neither `get` nor `list` ever writes
`stopped_at`). -/
theorem get_after_midloop_death_cex :
    (getDeployment gEnvDead "d"
        (backgroundHealthCheck mEnvDegraded "d" [("d", sampleRec)]).reg).result =
      GetRes.found { sampleRec with status := DStatus.stopped,
                                    health_ok := false } ∧
    ({ sampleRec with status := DStatus.stopped,
                      health_ok := false } : DRec).stopped_at = none := by
  decide

/-- **C6, amended.** If the process is already dead at the monitor's
settle-delay liveness check, then a subsequent `get` (and `list`)
observing the dead process returns the record with
`status == "stopped"`, `health_ok == False` and `stopped_at` set (to
the monitor's clock reading); when the process instead dies after
that check, `get`/`list` still report `stopped` / `health_ok=False`
but leave `stopped_at` null, since they never write it. -/
theorem get_list_after_early_death (menv : MonitorEnv) (genv : GetEnv)
    (lenv : ListEnv) (id : String) (reg : Registry) (r : DRec)
    (h : lookupDep reg id = some r) (hpid : pidTruthy r.pid = true)
    (hmdead : menv.aliveAfterSettle = false) (hgdead : genv.alive = false)
    (hldead : lenv.alive id = false) :
    (getDeployment genv id (backgroundHealthCheck menv id reg).reg).result =
      GetRes.found { r with status := DStatus.stopped, health_ok := false,
                            stopped_at := some menv.t_stop } ∧
    lookupDep (listDeployments lenv none none none
        (backgroundHealthCheck menv id reg).reg).reg id =
      some { r with status := DStatus.stopped, health_ok := false,
                    stopped_at := some menv.t_stop } := by
  have hreg1 : (backgroundHealthCheck menv id reg).reg =
      updateDep reg id (fun s => { s with status := DStatus.stopped,
                                          health_ok := false,
                                          stopped_at := some menv.t_stop }) := by
    simp only [backgroundHealthCheck, hmdead, Bool.false_eq_true, if_false]
  have hl1 : lookupDep (backgroundHealthCheck menv id reg).reg id =
      some { r with status := DStatus.stopped, health_ok := false,
                    stopped_at := some menv.t_stop } := by
    rw [hreg1, lookupDep_updateDep_self, h]
    rfl
  constructor
  · simp [getDeployment, hl1, hpid, hgdead]
  · show lookupDep ((backgroundHealthCheck menv id reg).reg.map
        (fun p => (p.1, listRefresh lenv p.1 p.2))) id = _
    rw [lookupDep_map_refresh, hl1]
    simp [listRefresh, hpid, hldead]

/-- Witness for the amended C6 at a concrete dead-at-settle run. -/
theorem get_list_after_early_death_witness :
    (getDeployment gEnvDead "d"
        (backgroundHealthCheck mEnvDead "d" [("d", sampleRec)]).reg).result =
      GetRes.found { sampleRec with status := DStatus.stopped, health_ok := false,
                                    stopped_at := some mEnvDead.t_stop } ∧
    lookupDep (listDeployments lEnvDead none none none
        (backgroundHealthCheck mEnvDead "d" [("d", sampleRec)]).reg).reg "d" =
      some { sampleRec with status := DStatus.stopped, health_ok := false,
                            stopped_at := some mEnvDead.t_stop } :=
  get_list_after_early_death mEnvDead gEnvDead lEnvDead "d" [("d", sampleRec)]
    sampleRec (by rfl) (by rfl) (by rfl) (by rfl) (by rfl)

/-- **C5, counterexample.** `get_deployment` moves a record from
`stopping` back to `running`: on a registry holding a record with
`status == "stopping"` and a truthy pid whose process is observed
alive, the refresh-on-read writes `status = "running"` — the
transition the claimed state machine forbids. -/
theorem stopping_to_running_cex :
    sampleStopping.status = DStatus.stopping ∧
    (lookupDep (getDeployment gEnvAlive "d" [("d", sampleStopping)]).reg "d").map
        DRec.status = some DStatus.running := by
  decide

/-- **C5, amended.** Across every operation (create, get, list,
delete, health monitor), an existing record's status is only ever
kept, or set to `running`, `stopped` or `stopping`: no operation ever
resets an existing record to `starting` or `failed`.  However,
contrary to the claimed machine, the liveness refresh of `get`/`list`
and the monitor's probe-completion write may move `stopping` (or
`stopped`) records back to `running` whenever the pid is observed
alive; `failed` records (pid `None`) are never re-statused. -/
theorem status_step_amended (op : Op) (reg : Registry) (id : String)
    (r r' : DRec) (hwf : regWF reg) (hfresh : opFresh op reg)
    (h : lookupDep reg id = some r)
    (h' : lookupDep (applyOp op reg) id = some r') :
    r'.status = r.status ∨ r'.status = DStatus.running ∨
      r'.status = DStatus.stopped ∨ r'.status = DStatus.stopping := by
  cases op with
  | create env =>
    simp only [opFresh] at hfresh
    have hne : id ≠ env.newId := by
      intro he
      rw [he, hfresh] at h
      exact Option.noConfusion h
    rcases hfp : findFreePort env.portFree PORT_RANGE_LOW PORT_RANGE_HIGH
      with ⟨res, tr⟩
    cases res with
    | none =>
      simp only [applyOp, createDeployment, hfp] at h'
      rw [h] at h'
      left
      rw [Option.some.inj h']
    | some port =>
      cases hl : env.launch with
      | none =>
        simp only [applyOp, createDeployment, hfp, hl] at h'
        rw [lookupDep_insertDep_ne _ _ _ _ hne, h] at h'
        left
        rw [Option.some.inj h']
      | some pid =>
        simp only [applyOp, createDeployment, hfp, hl] at h'
        rw [lookupDep_insertDep_ne _ _ _ _ hne, h] at h'
        left
        rw [Option.some.inj h']
  | get env gid =>
    cases hlg : lookupDep reg gid with
    | none =>
      simp only [applyOp, getDeployment, hlg] at h'
      rw [h] at h'
      left
      rw [Option.some.inj h']
    | some s =>
      cases hp : pidTruthy s.pid with
      | false =>
        simp only [applyOp, getDeployment, hlg, hp, Bool.false_eq_true,
          if_false] at h'
        rw [h] at h'
        left
        rw [Option.some.inj h']
      | true =>
        simp only [applyOp, getDeployment, hlg, hp, if_true] at h'
        by_cases hid : id = gid
        · subst hid
          rw [lookupDep_updateDep_self, h, Option.map_some'] at h'
          cases ha : env.alive with
          | true =>
            rw [ha] at h'
            simp only [if_true] at h'
            right; left
            rw [← Option.some.inj h']
          | false =>
            rw [ha] at h'
            simp only [Bool.false_eq_true, if_false] at h'
            right; right; left
            rw [← Option.some.inj h']
        · rw [lookupDep_updateDep_ne _ _ _ _ hid, h] at h'
          left
          rw [Option.some.inj h']
  | list env m t s =>
    have h'' : lookupDep (reg.map (fun p => (p.1, listRefresh env p.1 p.2))) id =
        some r' := h'
    rw [lookupDep_map_refresh, h, Option.map_some'] at h''
    have hr' : r' = listRefresh env id r := (Option.some.inj h'').symm
    subst hr'
    unfold listRefresh
    cases hp : pidTruthy r.pid with
    | false => left; rfl
    | true =>
      cases ha : env.alive id with
      | true => right; left; simp
      | false => right; right; left; simp
  | delete env did force =>
    cases hld : lookupDep reg did with
    | none =>
      simp only [applyOp, deleteDeployment, hld] at h'
      rw [h] at h'
      left
      rw [Option.some.inj h']
    | some s =>
      have hwf1 : regWF (updateDep reg did
          (fun t => { t with status := DStatus.stopping })) :=
        regWF_updateDep _ _ _ hwf
      rcases hpl : pollLoop env.aliveAt 0 env.pollIters with ⟨stopped, ptr⟩
      cases hp : pidTruthy s.pid with
      | false =>
        simp only [applyOp, deleteDeployment, hld, hp, Bool.false_eq_true,
          if_false] at h'
        by_cases hid : id = did
        · subst hid
          rw [lookupDep_removeDep_self _ _ hwf1] at h'
          exact Option.noConfusion h'
        · rw [lookupDep_removeDep_ne _ _ _ hid,
            lookupDep_updateDep_ne _ _ _ _ hid, h] at h'
          left
          rw [Option.some.inj h']
      | true =>
        simp only [applyOp, deleteDeployment, hld, hp, if_true, hpl] at h'
        cases stopped with
        | true =>
          simp only [if_true] at h'
          by_cases hid : id = did
          · subst hid
            rw [lookupDep_removeDep_self _ _ hwf1] at h'
            exact Option.noConfusion h'
          · rw [lookupDep_removeDep_ne _ _ _ hid,
              lookupDep_updateDep_ne _ _ _ _ hid, h] at h'
            left
            rw [Option.some.inj h']
        | false =>
          simp only [Bool.false_eq_true, if_false] at h'
          cases force with
          | true =>
            simp only [if_true] at h'
            by_cases hid : id = did
            · subst hid
              rw [lookupDep_removeDep_self _ _ hwf1] at h'
              exact Option.noConfusion h'
            · rw [lookupDep_removeDep_ne _ _ _ hid,
                lookupDep_updateDep_ne _ _ _ _ hid, h] at h'
              left
              rw [Option.some.inj h']
          | false =>
            simp only [Bool.false_eq_true, if_false] at h'
            by_cases hid : id = did
            · subst hid
              rw [lookupDep_updateDep_self, lookupDep_updateDep_self, h,
                Option.map_some', Option.map_some'] at h'
              right; right; right
              rw [← Option.some.inj h']
            · rw [lookupDep_updateDep_ne _ _ _ _ hid,
                lookupDep_updateDep_ne _ _ _ _ hid, h] at h'
              left
              rw [Option.some.inj h']
  | monitor env mid =>
    cases hm : env.aliveAfterSettle with
    | false =>
      simp only [applyOp, backgroundHealthCheck, hm, Bool.false_eq_true,
        if_false] at h'
      by_cases hid : id = mid
      · subst hid
        rw [lookupDep_updateDep_self, h, Option.map_some'] at h'
        right; right; left
        rw [← Option.some.inj h']
      · rw [lookupDep_updateDep_ne _ _ _ _ hid, h] at h'
        left
        rw [Option.some.inj h']
    | true =>
      rcases hml : monitorLoop (monAttempt env) 0 12 with ⟨success, tr⟩
      simp only [applyOp, backgroundHealthCheck, hm, if_true, hml] at h'
      by_cases hid : id = mid
      · subst hid
        rw [lookupDep_updateDep_self, h, Option.map_some'] at h'
        right; left
        rw [← Option.some.inj h']
      · rw [lookupDep_updateDep_ne _ _ _ _ hid, h] at h'
        left
        rw [Option.some.inj h']

/-- Witness for the amended C5: the monitor's degraded final write on
a `starting` record yields `running` (one of the admitted statuses). -/
theorem status_step_amended_witness :
    ({ sampleRec with status := DStatus.running,
                      health_ok := false } : DRec).status = sampleRec.status ∨
    ({ sampleRec with status := DStatus.running,
                      health_ok := false } : DRec).status = DStatus.running ∨
    ({ sampleRec with status := DStatus.running,
                      health_ok := false } : DRec).status = DStatus.stopped ∨
    ({ sampleRec with status := DStatus.running,
                      health_ok := false } : DRec).status = DStatus.stopping :=
  status_step_amended (Op.monitor mEnvDegraded "d") [("d", sampleRec)] "d"
    sampleRec { sampleRec with status := DStatus.running, health_ok := false }
    (by simp [regWF]) trivial (by rfl) (by decide)

/-- **C2.** For every `delete` call with `force=true` on a registered
id whose process never exits during the termination poll window, the
call returns the removal response and the record is gone from the
registry; for a truthy pid the trace shows the graceful signal, the
poll loop, then exactly one unconditional kill signal followed only by
the locked removal — no further polling of the process. -/
theorem delete_force_removes (env : DeleteEnv) (id : String) (reg : Registry)
    (r : DRec) (hwf : regWF reg) (h : lookupDep reg id = some r)
    (halive : ∀ i, env.aliveAt i = true) :
    (deleteDeployment env id true reg).result = DeleteRes.removed ∧
    lookupDep (deleteDeployment env id true reg).reg id = none ∧
    (pidTruthy r.pid = true →
      (deleteDeployment env id true reg).trace =
        [Ev.lockAcq, Ev.lockRel, Ev.blocking BlockKind.procSignal] ++
          (pollLoop env.aliveAt 0 env.pollIters).2 ++
          [Ev.blocking BlockKind.procSignal, Ev.lockAcq, Ev.lockRel]) := by
  have hwf1 : regWF (updateDep reg id
      (fun t => { t with status := DStatus.stopping })) :=
    regWF_updateDep _ _ _ hwf
  rcases hpl : pollLoop env.aliveAt 0 env.pollIters with ⟨stopped, ptr⟩
  have hstop : stopped = false := by
    have hns := pollLoop_not_stopped env.aliveAt halive env.pollIters 0
    rw [hpl] at hns
    exact hns
  subst hstop
  cases hp : pidTruthy r.pid with
  | false =>
    have hred : deleteDeployment env id true reg =
        ⟨DeleteRes.removed, removeDep (updateDep reg id
            (fun t => { t with status := DStatus.stopping })) id,
          [Ev.lockAcq, Ev.lockRel, Ev.lockAcq, Ev.lockRel]⟩ := by
      simp only [deleteDeployment, h, hp, Bool.false_eq_true, if_false]
    rw [hred]
    exact ⟨rfl, lookupDep_removeDep_self _ _ hwf1, fun hc => Bool.noConfusion hc⟩
  | true =>
    have hred : deleteDeployment env id true reg =
        ⟨DeleteRes.removed, removeDep (updateDep reg id
            (fun t => { t with status := DStatus.stopping })) id,
          ([Ev.lockAcq, Ev.lockRel, Ev.blocking BlockKind.procSignal] ++ ptr) ++
            [Ev.blocking BlockKind.procSignal, Ev.lockAcq, Ev.lockRel]⟩ := by
      simp only [deleteDeployment, h, hp, if_true, hpl, Bool.false_eq_true,
        if_false]
    rw [hred]
    refine ⟨rfl, lookupDep_removeDep_self _ _ hwf1, fun _ => ?_⟩
    simp [List.append_assoc]

/-- Witness for C2: forced delete of the sample record whose process
ignores every signal. -/
theorem delete_force_removes_witness :
    (deleteDeployment dEnvStuck "d" true [("d", sampleRec)]).result =
      DeleteRes.removed ∧
    lookupDep (deleteDeployment dEnvStuck "d" true [("d", sampleRec)]).reg "d" =
      none ∧
    (pidTruthy sampleRec.pid = true →
      (deleteDeployment dEnvStuck "d" true [("d", sampleRec)]).trace =
        [Ev.lockAcq, Ev.lockRel, Ev.blocking BlockKind.procSignal] ++
          (pollLoop dEnvStuck.aliveAt 0 dEnvStuck.pollIters).2 ++
          [Ev.blocking BlockKind.procSignal, Ev.lockAcq, Ev.lockRel]) :=
  delete_force_removes dEnvStuck "d" [("d", sampleRec)] sampleRec
    (by simp [regWF]) (by rfl) (fun i => rfl)

/-- **C3.** For every `delete` call with `force=false` on a registered
record whose process stays alive through the whole poll window, the
call fails with the HTTP 409 "retry with force" conflict and the
registry is unchanged except that the record's status is `stopping`:
the record is not removed, its `stopped_at` is untouched, and every
other entry is untouched. -/
theorem delete_graceful_timeout_conflict (env : DeleteEnv) (id : String)
    (reg : Registry) (r : DRec) (h : lookupDep reg id = some r)
    (hpid : pidTruthy r.pid = true) (halive : ∀ i, env.aliveAt i = true) :
    (deleteDeployment env id false reg).result = DeleteRes.conflict ∧
    lookupDep (deleteDeployment env id false reg).reg id =
      some { r with status := DStatus.stopping } ∧
    ({ r with status := DStatus.stopping } : DRec).stopped_at = r.stopped_at ∧
    (∀ j, j ≠ id →
      lookupDep (deleteDeployment env id false reg).reg j = lookupDep reg j) := by
  rcases hpl : pollLoop env.aliveAt 0 env.pollIters with ⟨stopped, ptr⟩
  have hstop : stopped = false := by
    have hns := pollLoop_not_stopped env.aliveAt halive env.pollIters 0
    rw [hpl] at hns
    exact hns
  subst hstop
  have hred : deleteDeployment env id false reg =
      ⟨DeleteRes.conflict, updateDep (updateDep reg id
          (fun t => { t with status := DStatus.stopping })) id
          (fun t => { t with status := DStatus.stopping }),
        ([Ev.lockAcq, Ev.lockRel, Ev.blocking BlockKind.procSignal] ++ ptr) ++
          [Ev.lockAcq, Ev.lockRel]⟩ := by
    simp only [deleteDeployment, h, hpid, if_true, hpl, Bool.false_eq_true,
      if_false]
  rw [hred]
  refine ⟨rfl, ?_, rfl, ?_⟩
  · rw [lookupDep_updateDep_self, lookupDep_updateDep_self, h]
    rfl
  · intro j hj
    rw [lookupDep_updateDep_ne _ _ _ _ hj, lookupDep_updateDep_ne _ _ _ _ hj]

/-- Witness for C3: non-forced delete of the sample record whose
process ignores the graceful signal for the whole window. -/
theorem delete_graceful_timeout_conflict_witness :
    (deleteDeployment dEnvStuck "d" false [("d", sampleRec)]).result =
      DeleteRes.conflict ∧
    lookupDep (deleteDeployment dEnvStuck "d" false [("d", sampleRec)]).reg "d" =
      some { sampleRec with status := DStatus.stopping } ∧
    ({ sampleRec with status := DStatus.stopping } : DRec).stopped_at =
      sampleRec.stopped_at ∧
    (∀ j, j ≠ "d" →
      lookupDep (deleteDeployment dEnvStuck "d" false [("d", sampleRec)]).reg j =
        lookupDep [("d", sampleRec)] j) :=
  delete_graceful_timeout_conflict dEnvStuck "d" [("d", sampleRec)] sampleRec
    (by rfl) (by rfl) (fun i => rfl)

/-- **C8, counterexample.** The port allocator consults only the OS
bind oracle, never the registry: when every port reports bindable
(the first deployment's process never bound its port), two successive
`create` calls hand both live (`starting`) records port 8000. -/
theorem duplicate_port_cex :
    (lookupDep (createDeployment cEnvB (createDeployment cEnvA []).reg).reg
        "a").map (fun r => (r.port, liveRec r)) = some (8000, true) ∧
    (lookupDep (createDeployment cEnvB (createDeployment cEnvA []).reg).reg
        "b").map (fun r => (r.port, liveRec r)) = some (8000, true) := by
  decide

/-- **C8, amended.** Every port returned by a successful `create` lies
in the configured range `[8000, 8999]`; and distinctness from the
ports of live registered records holds exactly under the environmental
assumption that each live record's port is currently unbindable (its
process holds the bind) — the allocator re-checks OS bindability only,
so the claimed unconditional uniqueness invariant fails (see the
counterexample) while this conditional form holds. -/
theorem port_range_and_conditional_unique (env : CreateEnv) (reg : Registry)
    (r : DRec) (hok : (createDeployment env reg).result = CreateRes.ok r)
    (hheld : ∀ p ∈ reg, liveRec p.2 = true → env.portFree p.2.port = false) :
    PORT_RANGE_LOW ≤ r.port ∧ r.port ≤ PORT_RANGE_HIGH ∧
    ∀ p ∈ reg, liveRec p.2 = true → p.2.port ≠ r.port := by
  rcases hfp : findFreePort env.portFree PORT_RANGE_LOW PORT_RANGE_HIGH
    with ⟨res, tr⟩
  cases res with
  | none =>
    simp only [createDeployment, hfp] at hok
    exact absurd hok (by simp)
  | some port =>
    obtain ⟨hlow, hhigh, hfree⟩ :=
      findFreePort_bounds env.portFree PORT_RANGE_LOW PORT_RANGE_HIGH port
        (by rw [hfp])
    cases hl : env.launch with
    | none =>
      simp only [createDeployment, hfp, hl] at hok
      exact absurd hok (by simp)
    | some pid =>
      simp only [createDeployment, hfp, hl] at hok
      injection hok with hr
      subst hr
      refine ⟨hlow, hhigh, fun p hp hlive heq => ?_⟩
      have hfalse := hheld p hp hlive
      rw [heq] at hfalse
      have hfp' : env.portFree port = false := hfalse
      rw [hfp'] at hfree
      exact Bool.noConfusion hfree

/-- Witness for the amended C8: the sample record is live on port
8000 whose bind is held, so `create` allocates 8001. -/
theorem port_range_and_conditional_unique_witness :
    PORT_RANGE_LOW ≤ cRecC.port ∧ cRecC.port ≤ PORT_RANGE_HIGH ∧
    ∀ p ∈ [("d", sampleRec)], liveRec p.2 = true → p.2.port ≠ cRecC.port :=
  port_range_and_conditional_unique cEnvC [("d", sampleRec)] cRecC
    (by decide) (by decide)

/-- **C9, counterexample.** When the native pynvml path is importable
and its query *succeeds* while enumerating zero devices, the function
returns that empty list immediately: the `nvidia-smi` fallback — which
here would yield a non-empty result — is never attempted, contrary to
the claimed "first path to yield a non-empty list wins". -/
theorem probe_no_fallback_cex :
    getGpuFreeMemory pEnvEmptyNvml = [] ∧
    smiPath pEnvEmptyNvml = [(0, 104857600)] := by
  decide

/-- **C9, amended.** `_get_gpu_free_memory` never raises (it is a
total function of the two oracle outcomes); the native path is tried
first and the command-line fallback is attempted exactly when the
native path is unavailable or raised — a successful native probe's
result is returned as-is, even when it is empty. -/
theorem probe_paths_amended (env : ProbeEnv) :
    (∀ l, env.pynvmlAvailable = true → env.nvmlDevices = some l →
      getGpuFreeMemory env = (List.range l.length).zip l) ∧
    ((env.pynvmlAvailable = false ∨ env.nvmlDevices = none) →
      getGpuFreeMemory env = smiPath env) := by
  constructor
  · intro l ha hd
    simp [getGpuFreeMemory, nvmlPath, ha, hd]
  · rintro (h | h)
    · simp [getGpuFreeMemory, h]
    · simp [getGpuFreeMemory, nvmlPath, h]

/-- Witness for the amended C9: pynvml unavailable, so the fallback's
result is returned. -/
theorem probe_paths_amended_witness :
    getGpuFreeMemory ⟨false, none, [(1, 2)]⟩ =
      smiPath ⟨false, none, [(1, 2)]⟩ :=
  (probe_paths_amended ⟨false, none, [(1, 2)]⟩).2 (Or.inl rfl)

/-- **C10, counterexample.** Both `get_deployment` and
`list_deployments` perform the synchronous HTTP health probe while
holding `_store_lock` (and `list` also the liveness signal): on a
record with a truthy pid observed alive, their traces contain a
blocking call inside a locked section, contrary to the claimed
discipline. -/
theorem lock_held_during_probe_cex :
    blockUnderLock false
      (getDeployment gEnvAlive "d" [("d", sampleRec)]).trace = true ∧
    blockUnderLock false
      (listDeployments lEnvAlive none none none
        [("d", sampleRec)]).trace = true := by
  decide

theorem endHeld_append (t1 t2 : List Ev) (h : Bool) :
    endHeld h (t1 ++ t2) = endHeld (endHeld h t1) t2 := by
  induction t1 generalizing h with
  | nil => rfl
  | cons e t ih => cases e <;> simp [endHeld, ih]

theorem blockUnderLock_sandwich (pre tr post : List Ev)
    (hpre1 : blockUnderLock false pre = false)
    (hpre2 : endHeld false pre = false)
    (htr : pureBlocking tr = true)
    (hpost : blockUnderLock false post = false) :
    blockUnderLock false ((pre ++ tr) ++ post) = false := by
  rw [blockUnderLock_append, blockUnderLock_append, hpre1, endHeld_append,
    hpre2, blockUnderLock_of_pureBlocking tr htr,
    endHeld_of_pureBlocking tr false htr, hpost]
  rfl

/-- **C10, amended.** `create_deployment`, `delete_deployment` and
`_background_health_check` never hold `_store_lock` across a blocking
call (their locked sections contain only in-memory map mutations);
the claimed discipline fails only for the refresh-on-read of
`get_deployment` and `list_deployments`, which probe HTTP (and, in
`list`, signal the process) inside a locked section — see the
counterexample. -/
theorem lock_discipline_create_delete_monitor (cenv : CreateEnv)
    (denv : DeleteEnv) (menv : MonitorEnv) (reg : Registry)
    (idd idm : String) (force : Bool) :
    blockUnderLock false (createDeployment cenv reg).trace = false ∧
    blockUnderLock false (deleteDeployment denv idd force reg).trace = false ∧
    blockUnderLock false (backgroundHealthCheck menv idm reg).trace = false := by
  refine ⟨?_, ?_, ?_⟩
  · rcases hfp : findFreePort cenv.portFree PORT_RANGE_LOW PORT_RANGE_HIGH
      with ⟨res, tr⟩
    have hpure : pureBlocking tr = true := by
      have hp := findFreePort_pure cenv.portFree PORT_RANGE_LOW PORT_RANGE_HIGH
      rw [hfp] at hp
      exact hp
    cases res with
    | none =>
      simp only [createDeployment, hfp]
      exact blockUnderLock_of_pureBlocking tr hpure
    | some port =>
      cases hl : cenv.launch with
      | none =>
        simp only [createDeployment, hfp, hl]
        have hs := blockUnderLock_sandwich [] tr [.lockAcq, .lockRel]
          rfl rfl hpure rfl
        simpa using hs
      | some pid =>
        simp only [createDeployment, hfp, hl]
        have hs := blockUnderLock_sandwich [] tr [.lockAcq, .lockRel]
          rfl rfl hpure rfl
        simpa using hs
  · cases hld : lookupDep reg idd with
    | none => simp only [deleteDeployment, hld]; rfl
    | some s =>
      rcases hpl : pollLoop denv.aliveAt 0 denv.pollIters with ⟨stopped, ptr⟩
      have hpure : pureBlocking ptr = true := by
        have hp := pollLoop_pure denv.aliveAt denv.pollIters 0
        rw [hpl] at hp
        exact hp
      cases hp : pidTruthy s.pid with
      | false => simp only [deleteDeployment, hld, hp, Bool.false_eq_true,
          if_false]; rfl
      | true =>
        cases stopped with
        | true =>
          simp only [deleteDeployment, hld, hp, if_true, hpl]
          exact blockUnderLock_sandwich
            [.lockAcq, .lockRel, .blocking .procSignal] ptr
            [.lockAcq, .lockRel] rfl rfl hpure rfl
        | false =>
          cases force with
          | true =>
            simp only [deleteDeployment, hld, hp, if_true, hpl,
              Bool.false_eq_true, if_false]
            exact blockUnderLock_sandwich
              [.lockAcq, .lockRel, .blocking .procSignal] ptr
              [.blocking .procSignal, .lockAcq, .lockRel] rfl rfl hpure rfl
          | false =>
            simp only [deleteDeployment, hld, hp, if_true, hpl,
              Bool.false_eq_true, if_false]
            exact blockUnderLock_sandwich
              [.lockAcq, .lockRel, .blocking .procSignal] ptr
              [.lockAcq, .lockRel] rfl rfl hpure rfl
  · cases hm : menv.aliveAfterSettle with
    | false =>
      simp only [backgroundHealthCheck, hm, Bool.false_eq_true, if_false]
      rfl
    | true =>
      rcases hml : monitorLoop (monAttempt menv) 0 12 with ⟨success, tr⟩
      have hpure : pureBlocking tr = true := by
        have hp := monitorLoop_pure (monAttempt menv) 12 0
        rw [hml] at hp
        exact hp
      simp only [backgroundHealthCheck, hm, if_true, hml]
      exact blockUnderLock_sandwich
        [.blocking .sleepCall, .blocking .procSignal] tr
        [.lockAcq, .lockRel] rfl rfl hpure rfl

end Deploy
